import Mathlib

/-!
Verification of the SpinnerMouse firmware main loop (SpinnerMouse.ino).

The definitions below are a shallow embedding of the firmware's pure logic:
machine integers become `Nat`/`Int` (with explicit wrap-around where the C
code relies on unsigned arithmetic), the C `double` intermediate in the
motion scaler is modelled as exact rational arithmetic (`ℚ`) followed by the
C truncation-toward-zero conversion back to an integer, and the side effects
of a loop iteration (Mouse API calls, serial prints, LED writes) become an
explicit event trace.
-/

namespace SpinnerMouse

/-! ## Firmware constants (SpinnerMouse.ino `#define`s) -/

def SLOW_PCT : ℕ := 20
def PCT_ADJUST : ℕ := 5
def MAX_SPEED : ℕ := 50
def AXIS_X : ℕ := 0
def AXIS_Y : ℕ := 1
def LED_FEEDBACK_MS : ℕ := 250
def LED_INTENSITY : ℕ := 32
def EVENT_INTERVAL_MS : ℕ := 4
def SLOW_TRIGGER_MS : ℕ := 2000
def PEDAL_JACK_AVAILABLE : Bool := true
def BUILTIN_LED_INVERTED : Bool := true

/-! ## Motion scaler -/

/-- `constrain_byte` from SpinnerMouse.ino: clamp an `int32_t` to `[-127, 127]`. -/
def constrain_byte (value : ℤ) : ℤ :=
  if value < -127 then -127
  else if value > 127 then 127
  else value

/-- C conversion of a real (`double`) value to an integer truncates toward zero. -/
def truncQ (q : ℚ) : ℤ :=
  if 0 ≤ q then ⌊q⌋ else -⌊-q⌋

/-- The delta computation at SpinnerMouse.ino line 637:
`constrain_byte(spinner_value * max(1, speed * speed_percent / 100.0))`.
The C `double` intermediate is modelled as exact rational arithmetic. -/
def scaledDelta (v : ℤ) (speed speed_percent : ℕ) : ℤ :=
  constrain_byte (truncQ ((v : ℚ) * max 1 ((speed : ℚ) * (speed_percent : ℚ) / 100)))

/-- The formula exactly as the spec states it (section 4.5):
`clamp(rawDelta * max(1, speedDial * speedPercent / 100), -127, 127)`,
with the division read as exact division and the result truncated toward
zero to produce an integer delta. -/
def spec_scale_formula (rawDelta : ℤ) (speedDial speedPercent : ℕ) : ℤ :=
  max (-127) (min 127 (truncQ ((rawDelta : ℚ) * max 1 ((speedDial : ℚ) * (speedPercent : ℚ) / 100))))

/-! ## Boot slow-mode latch (setup, lines 397-402) -/

/-- The boot-time speed latch: globals start at
`speed_percent = speed_percent_default = 100`; if the primary button reads
pressed at the start of `setup`, the firmware dwells `SLOW_TRIGGER_MS` and
re-samples; if still pressed both become `SLOW_PCT`, otherwise both become
100.  Returns `(speed_percent, speed_percent_default)`. -/
def setup_speed (pressedAtBoot pressedAfterDwell : Bool) : ℕ × ℕ :=
  if pressedAtBoot then
    let sp := if pressedAfterDwell then SLOW_PCT else 100
    (sp, sp)
  else (100, 100)

/-! ## End-of-tick delay (loop, line 652) -/

/-- The argument of the end-of-tick `delay` at SpinnerMouse.ino line 652:
`EVENT_INTERVAL_MS - min(0, millis() - loop_start_ms)`.  The subtraction
`millis() - loop_start_ms` is `uint32_t` arithmetic, hence `% 2^32`, and the
whole expression is computed in unsigned arithmetic. -/
def loop_delay_ms (elapsed : ℕ) : ℕ :=
  (EVENT_INTERVAL_MS - min 0 (elapsed % 2 ^ 32)) % 2 ^ 32

/-- The sleep the spec describes for the end of a tick: the fixed interval
minus the elapsed processing time, and zero once processing reaches the
interval. -/
def spec_sleep_remainder (elapsed : ℕ) : ℕ :=
  EVENT_INTERVAL_MS - min EVENT_INTERVAL_MS elapsed

/-! ## Data model: per-tick inputs, persistent loop state, event traces -/

/-- The three logical mouse buttons (left, right, middle) as a triple of
booleans, mirroring the C arrays `buttons_pressed[3]` and the `Mouse`
library's pressed-state. -/
structure BTriple where
  l : Bool
  r : Bool
  m : Bool
deriving DecidableEq, Repr

/-- Previous-tick button states; `none` models the `0xFF` "unset" sentinel. -/
structure OTriple where
  l : Option Bool
  r : Option Bool
  m : Option Bool
deriving DecidableEq, Repr

/-- Raw electrical inputs sampled by one `loop()` iteration.  The `lineX`
fields are the `digitalRead` levels of the active-low button pins
(`true` = high = not pressed); `pulses` is the net quadrature count the
encoder accumulated since the previous tick. -/
structure Input where
  serialByte : Option ℕ
  jackSense : Bool
  dip1 : Bool
  dip2 : Bool
  pot : ℕ
  line1 : Bool
  line2 : Bool
  lineExt : Bool
  pulses : ℤ
deriving DecidableEq, Repr

/-- The firmware state that persists across `loop()` iterations: the
`static` locals of `loop`, the two `speed_percent` globals, the encoder
accumulator and the host-side `Mouse` button state.  `Option` fields model
the `0xFF` "unset" sentinels of the `prev_*` statics. -/
structure LoopState where
  prevJack : Option Bool
  prevEvents : Option Bool
  prevAxis : Option ℕ
  prevSpeed : Option ℕ
  prevButtons : OTriple
  button_ext_nc : Bool
  buttons_swapped : Bool
  speed_percent : ℕ
  speed_percent_default : ℕ
  spinner : ℤ
  mouse : BTriple
deriving DecidableEq, Repr

/-- Host-side pointer-device API calls (`Mouse.press/release/move`). -/
inductive MouseEv where
  | press (i : Fin 3)
  | release (i : Fin 3)
  | releaseAll
  | move (dx dy : ℤ)
deriving DecidableEq, Repr

/-- Observable side effects of one tick, in emission order. -/
inductive Ev where
  | mouse (e : MouseEv)
  | serial (line : String)
  | blink (ms : ℕ) (leaveOn : Bool)
  | led (level : ℕ)
  | builtinLed (level : Bool)
deriving DecidableEq, Repr

def BTriple.get (t : BTriple) (i : Fin 3) : Bool :=
  if i.val = 0 then t.l else if i.val = 1 then t.r else t.m

def mouse_button_names (i : Fin 3) : String :=
  if i.val = 0 then "left" else if i.val = 1 then "right" else "middle"

/-! ## Derived per-tick reads (loop, lines 440-443) -/

/-- `jack_present = PEDAL_JACK_AVAILABLE && digitalRead(PIN_JACK_SENSE)`. -/
def jack_present (inp : Input) : Bool := PEDAL_JACK_AVAILABLE && inp.jackSense

/-- `events_enabled = !digitalRead(PIN_DIP_1)`. -/
def events_enabled (inp : Input) : Bool := !inp.dip1

/-- `axis = digitalRead(PIN_DIP_2)` (compared against `AXIS_X = 0`). -/
def axisOf (inp : Input) : ℕ := if inp.dip2 then 1 else 0

/-- `speed = map(analogRead(PIN_POT_1), 0, 1023, 1, MAX_SPEED)`; Arduino's
`map` is `(x - 0) * (MAX_SPEED - 1) / (1023 - 0) + 1` with integer
division (all operands non-negative here). -/
def speedOf (pot : ℕ) : ℕ := (pot - 0) * (MAX_SPEED - 1) / (1023 - 0) + 1

/-! ## Button remapper (loop, lines 572-592) -/

/-- Polarity-corrected pedal read:
`button_ext_nc ? digitalRead(PIN_BUTTON_EXT) : !digitalRead(PIN_BUTTON_EXT)`. -/
def pedal_corrected (nc lineExt : Bool) : Bool := if nc then lineExt else !lineExt

/-- The button remapper: maps the raw pin levels onto the (left, right,
middle) logical buttons according to pedal presence and the swap flag,
exactly as the `if (jack_present) { ... } else { ... }` block does. -/
def buttons_pressed (jack swapped nc line1 line2 lineExt : Bool) : BTriple :=
  if jack then
    if swapped then
      ⟨!line1, pedal_corrected nc lineExt, !line2⟩
    else
      ⟨pedal_corrected nc lineExt, !line1, !line2⟩
  else
    if swapped then
      ⟨!line2, !line1, false⟩
    else
      ⟨!line1, !line2, false⟩

/-! ## Serial command interpreter (loop, lines 456-515) -/

/-- Arduino's `constrain(x, a, b)` macro. -/
def constrain (x a b : ℤ) : ℤ := if x < a then a else if x > b then b else x

/-- Mode name used by the `c`/`r` settings report. -/
def modeName (pct : ℕ) : String :=
  if pct = SLOW_PCT then "slow" else if pct = 100 then "normal" else "custom"

/-- The current-settings report printed by the `c` command (and by `r`
through the case fall-through). -/
def settingsReport (st : LoopState) : List Ev :=
  [Ev.serial ("speed=" ++ modeName st.speed_percent ++ "(" ++ toString st.speed_percent ++ "%)"),
   Ev.serial ("buttons=" ++ (if st.buttons_swapped then "swapped" else "normal"))]

/-- One serial command: the received byte is forced to lowercase with
`| 0x20` and dispatched.  `en` is the `events_enabled` value of the tick
(it is the `leave_on` argument of the acknowledgment blink). -/
def serial_command (st : LoopState) (en : Bool) (b : ℕ) : LoopState × List Ev :=
  let c := b ||| 32
  if c = 115 then
    ({st with speed_percent := SLOW_PCT},
     [Ev.blink LED_FEEDBACK_MS en, Ev.serial "speed=slow"])
  else if c = 110 then
    ({st with speed_percent := 100},
     [Ev.blink LED_FEEDBACK_MS en, Ev.serial "speed=normal"])
  else if c = 119 then
    let sw := !st.buttons_swapped
    ({st with buttons_swapped := sw},
     [Ev.blink LED_FEEDBACK_MS en, Ev.serial ("buttons=" ++ (if sw then "swapped" else "normal"))])
  else if c = 114 then
    let st1 := {st with speed_percent := st.speed_percent_default, buttons_swapped := false}
    (st1, Ev.blink LED_FEEDBACK_MS en :: settingsReport st1)
  else if c = 99 then
    (st, settingsReport st)
  else if c = 43 ∨ c = 45 then
    let blinkEvs := if st.speed_percent = SLOW_PCT ∨ st.speed_percent = 100
      then [Ev.blink LED_FEEDBACK_MS en] else []
    let sp := (constrain ((st.speed_percent : ℤ) + (if c = 43 then 1 else -1) * (PCT_ADJUST : ℤ)) 1 255).toNat
    ({st with speed_percent := sp}, blinkEvs ++ [Ev.serial (if c = 43 then "+" else "-")])
  else
    (st, [Ev.serial "?"])

/-- `if (Serial.available() > 0)`: process at most one byte per tick. -/
def serialPhase (st : LoopState) (inp : Input) : LoopState × List Ev :=
  match inp.serialByte with
  | none => (st, [])
  | some b => serial_command st (events_enabled inp) b

/-! ## Change-detection phases of the loop (lines 517-600) -/

/-- Jack insertion/removal handling (lines 517-533): release all mouse
buttons, re-sample the pedal polarity, report and blink. -/
def jackPhase (st : LoopState) (inp : Input) : LoopState × List Ev :=
  let jp := jack_present inp
  if some jp ≠ st.prevJack then
    ({st with mouse := ⟨false, false, false⟩, button_ext_nc := !inp.lineExt, prevJack := some jp},
     [Ev.mouse .releaseAll,
      Ev.serial (if jp then
          "jack_connected" ++ (if !inp.lineExt then "[normally-closed]" else "[normally-open]")
        else "jack_disconnected"),
      Ev.blink LED_FEEDBACK_MS (events_enabled inp)])
  else (st, [])

/-- Events-enabled transition handling (lines 536-550): reset the encoder
on enable, release all mouse buttons on disable, set the indicator LED. -/
def eventsPhase (st : LoopState) (inp : Input) : LoopState × List Ev :=
  let en := events_enabled inp
  if some en ≠ st.prevEvents then
    let st1 := if en then {st with spinner := 0} else {st with mouse := ⟨false, false, false⟩}
    ({st1 with prevEvents := some en},
     (if en then [] else [Ev.mouse .releaseAll]) ++
     [Ev.led ((if en then 1 else 0) * LED_INTENSITY),
      Ev.serial ("events_" ++ (if en then "enabled" else "disabled"))])
  else (st, [])

/-- Axis-change echo (lines 553-558). -/
def axisEchoPhase (st : LoopState) (inp : Input) : LoopState × List Ev :=
  let a := axisOf inp
  if some a ≠ st.prevAxis then
    ({st with prevAxis := some a}, [Ev.serial ("axis=" ++ (if a = AXIS_X then "x" else "y"))])
  else (st, [])

/-- Speed-dial-change echo (lines 562-569). -/
def speedEchoPhase (st : LoopState) (inp : Input) : LoopState × List Ev :=
  let s := speedOf inp.pot
  if some s ≠ st.prevSpeed then
    ({st with prevSpeed := some s},
     [Ev.serial ("speed=" ++ toString s ++ "/" ++ toString MAX_SPEED)])
  else (st, [])

/-- One step of the builtin-LED debug loop (lines 595-600). -/
def builtinStep (prev : Option Bool) (b : Bool) : Option Bool × List Ev :=
  if some b ≠ prev then
    (some b, [Ev.builtinLed (if BUILTIN_LED_INVERTED then !b else b)])
  else (prev, [])

/-- The builtin-LED debug loop over the three logical buttons. -/
def builtinPhase (st : LoopState) (bp : BTriple) : LoopState × List Ev :=
  let s0 := builtinStep st.prevButtons.l bp.l
  let s1 := builtinStep st.prevButtons.r bp.r
  let s2 := builtinStep st.prevButtons.m bp.m
  ({st with prevButtons := ⟨s0.1, s1.1, s2.1⟩}, s0.2 ++ s1.2 ++ s2.2)

/-- The tick's logical button triple, from the current state's swap flag and
pedal polarity and the tick's raw pin levels. -/
def buttonsOf (st : LoopState) (inp : Input) : BTriple :=
  buttons_pressed (jack_present inp) st.buttons_swapped st.button_ext_nc
    inp.line1 inp.line2 inp.lineExt

/-! ## Event emission (lines 602-650) -/

/-- One step of the button-event loop (lines 610-628): press on a rising
edge against the host `Mouse` state, release on a falling edge. -/
def btnStep (i : Fin 3) (pressed host : Bool) : Bool × List Ev :=
  if pressed && !host then
    (true, [Ev.serial (mouse_button_names i ++ "_press"), Ev.mouse (.press i)])
  else if !pressed && host then
    (false, [Ev.serial (mouse_button_names i ++ "_release"), Ev.mouse (.release i)])
  else (host, [])

/-- The button-event loop over the three logical buttons. -/
def buttonEventsPhase (st : LoopState) (bp : BTriple) : LoopState × List Ev :=
  let s0 := btnStep 0 bp.l st.mouse.l
  let s1 := btnStep 1 bp.r st.mouse.r
  let s2 := btnStep 2 bp.m st.mouse.m
  ({st with mouse := ⟨s0.1, s1.1, s2.1⟩}, s0.2 ++ s1.2 ++ s2.2)

/-- The serial echo of a motion delta: its sign, then its absolute value. -/
def signLine (d : ℤ) : String := (if 0 ≤ d then "+" else "-") ++ toString d.natAbs

/-- Movement emission (lines 634-650): when the accumulated encoder value is
non-zero, scale it, move on the selected axis (Y inverted), echo the delta
and reset the accumulator. -/
def motionPhase (st : LoopState) (inp : Input) : LoopState × List Ev :=
  let v := st.spinner
  if v ≠ 0 then
    let d := scaledDelta v (speedOf inp.pot) st.speed_percent
    if axisOf inp = AXIS_X then
      ({st with spinner := 0}, [Ev.mouse (.move d 0), Ev.serial (signLine d)])
    else
      ({st with spinner := 0}, [Ev.mouse (.move 0 (-d)), Ev.serial (signLine (-d))])
  else (st, [])

/-! ## The whole tick -/

/-- Everything the loop does before the `if (!events_enabled) return;`
guard: encoder accumulation, serial command, jack / events / axis / speed
change detection and the builtin-LED debug writes. -/
def preMain (st : LoopState) (inp : Input) : LoopState × List Ev :=
  let stA := {st with spinner := st.spinner + inp.pulses}
  let r1 := serialPhase stA inp
  let r2 := jackPhase r1.1 inp
  let r3 := eventsPhase r2.1 inp
  let r4 := axisEchoPhase r3.1 inp
  let r5 := speedEchoPhase r4.1 inp
  let r6 := builtinPhase r5.1 (buttonsOf r5.1 inp)
  (r6.1, r1.2 ++ r2.2 ++ r3.2 ++ r4.2 ++ r5.2 ++ r6.2)

/-- One full `loop()` iteration. -/
def loopTick (st : LoopState) (inp : Input) : LoopState × List Ev :=
  let pre := preMain st inp
  if events_enabled inp then
    let r7 := buttonEventsPhase pre.1 (buttonsOf pre.1 inp)
    let r8 := motionPhase r7.1 inp
    (r8.1, pre.2 ++ r7.2 ++ r8.2)
  else pre

/-- Run the loop over a sequence of per-tick inputs, concatenating traces. -/
def run (st : LoopState) : List Input → LoopState × List Ev
  | [] => (st, [])
  | inp :: rest =>
    let r := loopTick st inp
    let r2 := run r.1 rest
    (r2.1, r.2 ++ r2.2)

/-- Occurrences of one event in a trace. -/
def countEv (e : Ev) : List Ev → ℕ
  | [] => 0
  | x :: xs => (if x = e then 1 else 0) + countEv e xs

/-- Number of `false → true` transitions of a boolean signal, seeded with
the value the signal had before the sequence started. -/
def risingEdges : Bool → List Bool → ℕ
  | _, [] => 0
  | prev, b :: bs => (if b && !prev then 1 else 0) + risingEdges b bs

/-- Number of `true → false` transitions of a boolean signal. -/
def fallingEdges : Bool → List Bool → ℕ
  | _, [] => 0
  | prev, b :: bs => (if !b && prev then 1 else 0) + fallingEdges b bs

/-- Marks the pointer-device calls that only the (skippable) event-emission
half of the loop produces: individual presses/releases and motion.  The
forced `Mouse.release(MOUSE_ALL)` of the jack / disable transitions is the
one pointer call the change-detection half may emit. -/
def isPointerChange : Ev → Bool
  | Ev.mouse (.press _) => true
  | Ev.mouse (.release _) => true
  | Ev.mouse (.move _ _) => true
  | _ => false

/-! ## Concrete states for witnesses and counterexamples -/

/-- A loop state with the boot defaults of the configuration globals. -/
def stDefaults : LoopState :=
  { prevJack := none, prevEvents := none, prevAxis := none, prevSpeed := none,
    prevButtons := ⟨none, none, none⟩, button_ext_nc := false, buttons_swapped := false,
    speed_percent := 100, speed_percent_default := 100, spinner := 0,
    mouse := ⟨false, false, false⟩ }

/-- A loop state whose `speed_percent` has been moved off the predefined
modes (as two `+` commands from normal mode produce). -/
def stCustom : LoopState :=
  { stDefaults with speed_percent := 105 }

/-- A loop state in steady operation: jack previously absent, events
previously enabled. -/
def stW5 : LoopState :=
  { stDefaults with prevJack := some true, prevEvents := some true }

/-- A tick input that removes the jack and disables events at once. -/
def inpW5 : Input :=
  { serialByte := none, jackSense := false, dip1 := true, dip2 := false,
    pot := 0, line1 := true, line2 := true, lineExt := true, pulses := 0 }

/-- A steady state for the edge-trigger witness: no jack, events enabled. -/
def stW3 : LoopState :=
  { stDefaults with prevJack := some false, prevEvents := some true }

/-- A tick input holding the primary button pressed (line 1 low), with
events enabled, no jack and no serial traffic. -/
def inpW3 : Input :=
  { serialByte := none, jackSense := false, dip1 := false, dip2 := false,
    pot := 0, line1 := false, line2 := true, lineExt := true, pulses := 0 }

/-! ## Theorems -/

theorem constrain_byte_eq_clamp (x : ℤ) : constrain_byte x = max (-127) (min 127 x) := by
  unfold constrain_byte
  split_ifs <;> omega

theorem constrain_byte_lower (x : ℤ) : -127 ≤ constrain_byte x := by
  unfold constrain_byte
  split_ifs <;> omega

theorem constrain_byte_upper (x : ℤ) : constrain_byte x ≤ 127 := by
  unfold constrain_byte
  split_ifs <;> omega

theorem abs_constrain_byte (x : ℤ) : |constrain_byte x| = min 127 |x| := by
  unfold constrain_byte
  simp only [Int.abs_eq_natAbs]
  split_ifs <;> omega

theorem abs_truncQ (q : ℚ) : |truncQ q| = ⌊|q|⌋ := by
  unfold truncQ
  split_ifs with h
  · rw [abs_of_nonneg h, abs_of_nonneg (Int.floor_nonneg.2 h)]
  · push_neg at h
    rw [abs_of_neg h, abs_neg, abs_of_nonneg (Int.floor_nonneg.2 (by linarith))]

theorem abs_scaledDelta (v : ℤ) (s p : ℕ) :
    |scaledDelta v s p| = min 127 ⌊|(v : ℚ)| * max 1 ((s : ℚ) * (p : ℚ) / 100)⌋ := by
  have hf : (0 : ℚ) ≤ max 1 ((s : ℚ) * (p : ℚ) / 100) :=
    le_trans zero_le_one (le_max_left _ _)
  rw [scaledDelta, abs_constrain_byte, abs_truncQ, abs_mul, abs_of_nonneg hf]

/-- Claim C1: for every raw encoder delta `rawDelta ≠ 0`, every dial value in
`[1, MAX_SPEED]` and every `speedPercent` in `[1, 255]`, the emitted motion
delta equals `clamp(rawDelta * max(1, speedDial * speedPercent / 100), -127, 127)`;
it always lies in `[-127, 127]`, is monotonic in `|rawDelta|`, and is never
zero when `rawDelta` is non-zero. -/
theorem claim1_motion_scaler (rawDelta : ℤ) (speedDial speedPercent : ℕ)
    (hr : rawDelta ≠ 0) (hd1 : 1 ≤ speedDial) (hd2 : speedDial ≤ MAX_SPEED)
    (hp1 : 1 ≤ speedPercent) (hp2 : speedPercent ≤ 255) :
    scaledDelta rawDelta speedDial speedPercent = spec_scale_formula rawDelta speedDial speedPercent ∧
    -127 ≤ scaledDelta rawDelta speedDial speedPercent ∧
    scaledDelta rawDelta speedDial speedPercent ≤ 127 ∧
    scaledDelta rawDelta speedDial speedPercent ≠ 0 ∧
    ∀ rawDelta2 : ℤ, |rawDelta| ≤ |rawDelta2| →
      |scaledDelta rawDelta speedDial speedPercent| ≤ |scaledDelta rawDelta2 speedDial speedPercent| := by
  set f : ℚ := max 1 ((speedDial : ℚ) * (speedPercent : ℚ) / 100) with hfdef
  have hf1 : (1 : ℚ) ≤ f := le_max_left _ _
  have hf0 : (0 : ℚ) ≤ f := le_trans zero_le_one hf1
  refine ⟨?_, constrain_byte_lower _, constrain_byte_upper _, ?_, ?_⟩
  · rw [scaledDelta, spec_scale_formula, constrain_byte_eq_clamp]
  · -- never zero when rawDelta ≠ 0
    have h1 : (1 : ℚ) ≤ |(rawDelta : ℚ)| := by
      rw [← Int.cast_abs]
      exact_mod_cast Int.one_le_abs hr
    have hmul : (1 : ℚ) ≤ |(rawDelta : ℚ)| * f := by
      calc (1 : ℚ) = 1 * 1 := by ring
      _ ≤ |(rawDelta : ℚ)| * f := by
        exact mul_le_mul h1 hf1 zero_le_one (abs_nonneg _)
    have hfloor : (1 : ℤ) ≤ ⌊|(rawDelta : ℚ)| * f⌋ := Int.le_floor.2 (by exact_mod_cast hmul)
    have habs : (1 : ℤ) ≤ |scaledDelta rawDelta speedDial speedPercent| := by
      rw [abs_scaledDelta, ← hfdef]
      exact le_min (by norm_num) hfloor
    intro hzero
    rw [hzero] at habs
    simp at habs
  · intro r2 hle
    have hleQ : |(rawDelta : ℚ)| ≤ |(r2 : ℚ)| := by
      rw [← Int.cast_abs, ← Int.cast_abs]
      exact_mod_cast hle
    have hmul : |(rawDelta : ℚ)| * f ≤ |(r2 : ℚ)| * f :=
      mul_le_mul_of_nonneg_right hleQ hf0
    rw [abs_scaledDelta, abs_scaledDelta, ← hfdef]
    exact min_le_min le_rfl (Int.floor_le_floor hmul)

/-- Witness for claim C1 at `rawDelta = 2`, `speedDial = 3`, `speedPercent = 50`. -/
theorem claim1_motion_scaler_witness :
    ((2 : ℤ) ≠ 0 ∧ 1 ≤ 3 ∧ 3 ≤ MAX_SPEED ∧ 1 ≤ 50 ∧ 50 ≤ 255) ∧
    (scaledDelta 2 3 50 = spec_scale_formula 2 3 50 ∧
     -127 ≤ scaledDelta 2 3 50 ∧
     scaledDelta 2 3 50 ≤ 127 ∧
     scaledDelta 2 3 50 ≠ 0 ∧
     ∀ rawDelta2 : ℤ, |(2 : ℤ)| ≤ |rawDelta2| →
       |scaledDelta 2 3 50| ≤ |scaledDelta rawDelta2 3 50|) :=
  ⟨⟨by decide, by decide, by decide, by decide, by decide⟩,
   claim1_motion_scaler 2 3 50 (by decide) (by decide) (by decide) (by decide) (by decide)⟩

/-- Claim C6: the boot slow-mode latch sets both `speed_percent` and
`speed_percent_default` to `SLOW_PCT` exactly when the primary button reads
pressed at the start of `setup` and still reads pressed after the
`SLOW_TRIGGER_MS = 2000` ms dwell; in every other case both equal 100. -/
theorem claim6_boot_latch :
    SLOW_TRIGGER_MS = 2000 ∧
    setup_speed true true = (SLOW_PCT, SLOW_PCT) ∧
    setup_speed true false = (100, 100) ∧
    (∀ p, setup_speed false p = (100, 100)) := by
  decide

/-- Claim C9 (code bug): the end-of-tick delay argument is
`EVENT_INTERVAL_MS - min(0, elapsed)`; since `elapsed` is unsigned,
`min(0, elapsed)` is always 0 and the loop always sleeps the full
`EVENT_INTERVAL_MS`, never the remainder the spec describes (which would be
0 for a tick whose processing took 10 ms). -/
theorem claim9_tick_pacing :
    (∀ elapsed, loop_delay_ms elapsed = EVENT_INTERVAL_MS) ∧
    loop_delay_ms 10 = 4 ∧
    spec_sleep_remainder 10 = 0 := by
  refine ⟨fun e => ?_, by decide, by decide⟩
  simp [loop_delay_ms, EVENT_INTERVAL_MS]

/-- Claim C2: the button remapper follows the section 4.4 table (raw
pressed-states are the negated active-low pin levels): with no jack,
left/right are buttons A/B (B/A when swapped) and middle is always false;
with a jack, left is the polarity-corrected pedal and right is button A
(exchanged when swapped) and middle is button B; toggling the swap flag
only exchanges the left and right outputs and never changes middle. -/
theorem claim2_button_remapper :
    ∀ nc l1 l2 le : Bool,
      buttons_pressed false false nc l1 l2 le = ⟨!l1, !l2, false⟩ ∧
      buttons_pressed false true nc l1 l2 le = ⟨!l2, !l1, false⟩ ∧
      buttons_pressed true false nc l1 l2 le = ⟨pedal_corrected nc le, !l1, !l2⟩ ∧
      buttons_pressed true true nc l1 l2 le = ⟨!l1, pedal_corrected nc le, !l2⟩ ∧
      (∀ j sw, (buttons_pressed j (!sw) nc l1 l2 le).l = (buttons_pressed j sw nc l1 l2 le).r ∧
               (buttons_pressed j (!sw) nc l1 l2 le).r = (buttons_pressed j sw nc l1 l2 le).l ∧
               (buttons_pressed j (!sw) nc l1 l2 le).m = (buttons_pressed j sw nc l1 l2 le).m) := by
  decide

theorem serial_command_default_invariant (st : LoopState) (en : Bool) (b : ℕ) :
    (serial_command st en b).1.speed_percent_default = st.speed_percent_default := by
  simp only [serial_command]
  split_ifs <;> rfl

theorem foldl_serial_default (cmds : List (ℕ × Bool)) (st : LoopState) :
    (cmds.foldl (fun s p => (serial_command s p.2 p.1).1) st).speed_percent_default
      = st.speed_percent_default := by
  induction cmds generalizing st with
  | nil => rfl
  | cons p rest ih =>
    rw [List.foldl_cons, ih, serial_command_default_invariant]

theorem serial_command_r (st : LoopState) (en : Bool) (b : ℕ) (hb : b ||| 32 = 114) :
    (serial_command st en b).1
      = {st with speed_percent := st.speed_percent_default, buttons_swapped := false} := by
  simp only [serial_command, hb]
  norm_num

/-- Claim C4: after any sequence of `s`/`n`/`+`/`-`/`w` commands, a
subsequent `r` command sets `speed_percent` back to the boot-captured
default and `buttons_swapped` to false. -/
theorem claim4_restore_defaults (st0 : LoopState) (cmds : List (ℕ × Bool)) (en : Bool) (b : ℕ)
    (hcmds : ∀ p ∈ cmds, p.1 ||| 32 = 115 ∨ p.1 ||| 32 = 110 ∨ p.1 ||| 32 = 43 ∨
      p.1 ||| 32 = 45 ∨ p.1 ||| 32 = 119)
    (hb : b ||| 32 = 114) :
    (serial_command (cmds.foldl (fun s p => (serial_command s p.2 p.1).1) st0) en b).1.speed_percent
      = st0.speed_percent_default ∧
    (serial_command (cmds.foldl (fun s p => (serial_command s p.2 p.1).1) st0) en b).1.buttons_swapped
      = false := by
  rw [serial_command_r _ _ _ hb]
  exact ⟨foldl_serial_default cmds st0, rfl⟩

/-- Witness for claim C4: `+` then `w`, then `r`. -/
theorem claim4_restore_defaults_witness :
    ((∀ p ∈ [((43 : ℕ), true), ((119 : ℕ), false)],
        p.1 ||| 32 = 115 ∨ p.1 ||| 32 = 110 ∨ p.1 ||| 32 = 43 ∨
        p.1 ||| 32 = 45 ∨ p.1 ||| 32 = 119) ∧ (114 : ℕ) ||| 32 = 114) ∧
    ((serial_command ([((43 : ℕ), true), ((119 : ℕ), false)].foldl
        (fun s p => (serial_command s p.2 p.1).1) stDefaults) true 114).1.speed_percent
      = stDefaults.speed_percent_default ∧
     (serial_command ([((43 : ℕ), true), ((119 : ℕ), false)].foldl
        (fun s p => (serial_command s p.2 p.1).1) stDefaults) true 114).1.buttons_swapped
      = false) :=
  ⟨⟨by decide, by decide⟩,
   claim4_restore_defaults stDefaults [((43 : ℕ), true), ((119 : ℕ), false)] true 114
     (by decide) (by decide)⟩

/-- Counterexample to claim C7 as stated: byte 13 (carriage return) is not
one of the canonical commands `s n r c w + -` in either letter case, yet
`13 | 0x20 = 45 = '-'`, so it is executed as a decrement: from the boot
state it mutates `speed_percent` from 100 to 95 and answers `-` (with a
blink), not `?`. -/
theorem claim7_counterexample :
    ((13 : ℕ) ||| 32 = 45) ∧
    (serial_command stDefaults true 13).1.speed_percent = 95 ∧
    (serial_command stDefaults true 13).2 = [Ev.blink LED_FEEDBACK_MS true, Ev.serial "-"] := by
  refine ⟨by decide, by decide, by decide⟩

/-- Claim C7 as amended: the interpreter forces every received byte to
lowercase with `| 0x20` (so it is case-insensitive on letters); a byte
whose lowered value is not one of `s n r c w + -` is answered with `?`
and mutates no state.  (Bytes that alias onto a command under `| 0x20`,
such as 13 ↦ `-`, execute that command.) -/
theorem claim7_unknown_bytes :
    (∀ (st : LoopState) (en : Bool) (b : ℕ),
      serial_command st en b = serial_command st en (b ||| 32)) ∧
    (∀ (st : LoopState) (en : Bool) (b : ℕ), b < 256 →
      ¬(b ||| 32 = 115 ∨ b ||| 32 = 110 ∨ b ||| 32 = 119 ∨ b ||| 32 = 114 ∨
        b ||| 32 = 99 ∨ b ||| 32 = 43 ∨ b ||| 32 = 45) →
      serial_command st en b = (st, [Ev.serial "?"])) := by
  constructor
  · intro st en b
    have h32 : (32 : ℕ) ||| 32 = 32 := by decide
    have key : (b ||| 32) ||| 32 = b ||| 32 := by
      rw [Nat.lor_assoc, h32]
    simp only [serial_command, key]
  · intro st en b _hb h
    push_neg at h
    obtain ⟨h1, h2, h3, h4, h5, h6, h7⟩ := h
    simp only [serial_command, h1, h2, h3, h4, h5, h6, h7, if_false, or_self,
      if_neg (fun hor : b ||| 32 = 43 ∨ b ||| 32 = 45 => hor.elim h6 h7)]

/-- Witness for claim C7 (amended) at byte 63 (`?`). -/
theorem claim7_unknown_bytes_witness :
    ((63 : ℕ) < 256 ∧
     ¬((63 : ℕ) ||| 32 = 115 ∨ (63 : ℕ) ||| 32 = 110 ∨ (63 : ℕ) ||| 32 = 119 ∨
       (63 : ℕ) ||| 32 = 114 ∨ (63 : ℕ) ||| 32 = 99 ∨ (63 : ℕ) ||| 32 = 43 ∨
       (63 : ℕ) ||| 32 = 45)) ∧
    serial_command stDefaults true 63 = (stDefaults, [Ev.serial "?"]) :=
  ⟨⟨by decide, by decide⟩, claim7_unknown_bytes.2 stDefaults true 63 (by decide) (by decide)⟩

/-- Counterexample to claim C8 as stated: with `speed_percent = 105` (a
custom value, reachable by sending `+` from normal mode) the mutating
command `+` emits no blink at all — its trace is just the `+` echo, while
it does mutate `speed_percent` to 110. -/
theorem claim8_counterexample :
    (serial_command stCustom true 43).1.speed_percent = 110 ∧
    (serial_command stCustom true 43).2 = [Ev.serial "+"] := by
  refine ⟨by decide, by decide⟩

/-- Claim C8 as amended: `s`, `n`, `r`, `w` always blink (the blink is the
first event of the command's trace, before the loop resumes); `+`/`-`
blink exactly when the current `speed_percent` is one of the predefined
modes (`SLOW_PCT` or 100), i.e. when moving away from a predefined mode;
`c` never blinks. -/
theorem claim8_blink_ack :
    ∀ (st : LoopState) (en : Bool) (b : ℕ),
      ((b ||| 32 = 115 ∨ b ||| 32 = 110 ∨ b ||| 32 = 114 ∨ b ||| 32 = 119) →
        (serial_command st en b).2.head? = some (Ev.blink LED_FEEDBACK_MS en)) ∧
      ((b ||| 32 = 43 ∨ b ||| 32 = 45) →
        ((Ev.blink LED_FEEDBACK_MS en ∈ (serial_command st en b).2) ↔
          (st.speed_percent = SLOW_PCT ∨ st.speed_percent = 100))) ∧
      (b ||| 32 = 99 → ∀ ms leaveOn, Ev.blink ms leaveOn ∉ (serial_command st en b).2) := by
  intro st en b
  refine ⟨?_, ?_, ?_⟩
  · rintro (h | h | h | h) <;> simp [serial_command, h]
  · intro h
    by_cases hsp : st.speed_percent = SLOW_PCT ∨ st.speed_percent = 100 <;>
      rcases h with h | h <;>
      simp [serial_command, h, hsp]
  · intro h ms leaveOn
    simp [serial_command, h, settingsReport]

/-- Witness for claim C8 (amended) at the `s` command from the boot state. -/
theorem claim8_blink_ack_witness :
    ((115 : ℕ) ||| 32 = 115 ∨ (115 : ℕ) ||| 32 = 110 ∨ (115 : ℕ) ||| 32 = 114 ∨
      (115 : ℕ) ||| 32 = 119) ∧
    (serial_command stDefaults true 115).2.head? = some (Ev.blink LED_FEEDBACK_MS true) :=
  ⟨by decide, (claim8_blink_ack stDefaults true 115).1 (by decide)⟩

/-- Claim C10: the `r` command, after restoring the defaults, emits exactly
the settings report the `c` command would emit in the restored state: the
mode name (slow when the restored percent is `SLOW_PCT`, normal when it is
100, custom otherwise) with the percent value, then the swap state. -/
theorem claim10_restore_reports (st : LoopState) (en : Bool) :
    (serial_command st en 114).1.speed_percent = st.speed_percent_default ∧
    (serial_command st en 114).1.buttons_swapped = false ∧
    (serial_command st en 114).2
      = Ev.blink LED_FEEDBACK_MS en :: (serial_command (serial_command st en 114).1 en 99).2 ∧
    (serial_command (serial_command st en 114).1 en 99).1 = (serial_command st en 114).1 ∧
    (serial_command (serial_command st en 114).1 en 99).2
      = [Ev.serial ("speed=" ++ (if st.speed_percent_default = SLOW_PCT then "slow"
            else if st.speed_percent_default = 100 then "normal" else "custom")
            ++ "(" ++ toString st.speed_percent_default ++ "%)"),
         Ev.serial ("buttons=" ++ "normal")] := by
  refine ⟨?_, ?_, ?_, ?_, ?_⟩ <;>
    simp [serial_command, settingsReport, modeName]

/-! ### Shape lemmas for the loop phases -/

theorem serial_command_fst (st : LoopState) (en : Bool) (b : ℕ) :
    (serial_command st en b).1
      = {st with speed_percent := (serial_command st en b).1.speed_percent,
                 buttons_swapped := (serial_command st en b).1.buttons_swapped} := by
  simp only [serial_command]
  split_ifs <;> rfl

theorem serialPhase_fst (st : LoopState) (inp : Input) :
    (serialPhase st inp).1
      = {st with speed_percent := (serialPhase st inp).1.speed_percent,
                 buttons_swapped := (serialPhase st inp).1.buttons_swapped} := by
  cases h : inp.serialByte with
  | none => simp only [serialPhase, h]
  | some b => simp only [serialPhase, h]; exact serial_command_fst st (events_enabled inp) b

theorem jackPhase_fst (st : LoopState) (inp : Input) :
    (jackPhase st inp).1
      = {st with mouse := (jackPhase st inp).1.mouse,
                 button_ext_nc := (jackPhase st inp).1.button_ext_nc,
                 prevJack := (jackPhase st inp).1.prevJack} := by
  simp only [jackPhase]
  split <;> rfl

theorem eventsPhase_fst (st : LoopState) (inp : Input) :
    (eventsPhase st inp).1
      = {st with spinner := (eventsPhase st inp).1.spinner,
                 mouse := (eventsPhase st inp).1.mouse,
                 prevEvents := (eventsPhase st inp).1.prevEvents} := by
  simp only [eventsPhase]
  split
  · split <;> rfl
  · rfl

theorem axisEchoPhase_fst (st : LoopState) (inp : Input) :
    (axisEchoPhase st inp).1 = {st with prevAxis := (axisEchoPhase st inp).1.prevAxis} := by
  simp only [axisEchoPhase]
  split <;> rfl

theorem speedEchoPhase_fst (st : LoopState) (inp : Input) :
    (speedEchoPhase st inp).1 = {st with prevSpeed := (speedEchoPhase st inp).1.prevSpeed} := by
  simp only [speedEchoPhase]
  split <;> rfl

theorem builtinPhase_fst (st : LoopState) (bp : BTriple) :
    (builtinPhase st bp).1 = {st with prevButtons := (builtinPhase st bp).1.prevButtons} := rfl

theorem jackPhase_change (st : LoopState) (inp : Input)
    (h : st.prevJack ≠ some (jack_present inp)) :
    (jackPhase st inp).1.mouse = ⟨false, false, false⟩ ∧
    (jackPhase st inp).1.button_ext_nc = !inp.lineExt ∧
    Ev.mouse .releaseAll ∈ (jackPhase st inp).2 := by
  have hc : some (jack_present inp) ≠ st.prevJack := Ne.symm h
  simp [jackPhase, if_pos hc]

theorem eventsPhase_mouse_false (st : LoopState) (inp : Input)
    (h : st.mouse = ⟨false, false, false⟩) :
    (eventsPhase st inp).1.mouse = ⟨false, false, false⟩ := by
  simp only [eventsPhase]
  split
  · split <;> simp [h]
  · exact h

theorem eventsPhase_disable (st : LoopState) (inp : Input)
    (h : st.prevEvents ≠ some (events_enabled inp)) (hen : events_enabled inp = false) :
    (eventsPhase st inp).1.mouse = ⟨false, false, false⟩ ∧
    Ev.mouse .releaseAll ∈ (eventsPhase st inp).2 := by
  rw [hen] at h
  have hne : some false ≠ st.prevEvents := Ne.symm h
  simp [eventsPhase, hen, hne]

theorem loopTick_mem_of_preMain (st : LoopState) (inp : Input) (e : Ev)
    (h : e ∈ (preMain st inp).2) : e ∈ (loopTick st inp).2 := by
  simp only [loopTick]
  split
  · simp [h]
  · exact h

/-! ### The change-detection half emits no individual press/release/move -/

theorem serial_command_no_pointer (st : LoopState) (en : Bool) (b : ℕ) :
    ∀ e ∈ (serial_command st en b).2, isPointerChange e = false := by
  simp only [serial_command]
  split_ifs <;> simp_all [settingsReport, isPointerChange]

theorem serialPhase_no_pointer (st : LoopState) (inp : Input) :
    ∀ e ∈ (serialPhase st inp).2, isPointerChange e = false := by
  cases h : inp.serialByte with
  | none => simp [serialPhase, h]
  | some b => simp only [serialPhase, h]; exact serial_command_no_pointer st (events_enabled inp) b

theorem jackPhase_no_pointer (st : LoopState) (inp : Input) :
    ∀ e ∈ (jackPhase st inp).2, isPointerChange e = false := by
  simp only [jackPhase]
  split <;> simp_all [isPointerChange]

theorem eventsPhase_no_pointer (st : LoopState) (inp : Input) :
    ∀ e ∈ (eventsPhase st inp).2, isPointerChange e = false := by
  simp only [eventsPhase]
  split
  · split <;> simp_all [isPointerChange]
  · simp

theorem axisEchoPhase_no_pointer (st : LoopState) (inp : Input) :
    ∀ e ∈ (axisEchoPhase st inp).2, isPointerChange e = false := by
  simp only [axisEchoPhase]
  split <;> simp_all [isPointerChange]

theorem speedEchoPhase_no_pointer (st : LoopState) (inp : Input) :
    ∀ e ∈ (speedEchoPhase st inp).2, isPointerChange e = false := by
  simp only [speedEchoPhase]
  split <;> simp_all [isPointerChange]

theorem builtinStep_no_pointer (prev : Option Bool) (b : Bool) :
    ∀ e ∈ (builtinStep prev b).2, isPointerChange e = false := by
  simp only [builtinStep]
  split <;> simp_all [isPointerChange]

theorem no_pointer_append {l1 l2 : List Ev}
    (h1 : ∀ e ∈ l1, isPointerChange e = false) (h2 : ∀ e ∈ l2, isPointerChange e = false) :
    ∀ e ∈ l1 ++ l2, isPointerChange e = false := by
  intro e he
  rcases List.mem_append.1 he with h | h
  · exact h1 e h
  · exact h2 e h

theorem builtinPhase_no_pointer (st : LoopState) (bp : BTriple) :
    ∀ e ∈ (builtinPhase st bp).2, isPointerChange e = false := by
  simp only [builtinPhase]
  exact no_pointer_append
    (no_pointer_append (builtinStep_no_pointer _ _) (builtinStep_no_pointer _ _))
    (builtinStep_no_pointer _ _)

theorem preMain_no_pointer (st : LoopState) (inp : Input) :
    ∀ e ∈ (preMain st inp).2, isPointerChange e = false := by
  simp only [preMain]
  exact no_pointer_append
    (no_pointer_append
      (no_pointer_append
        (no_pointer_append
          (no_pointer_append (serialPhase_no_pointer _ _) (jackPhase_no_pointer _ _))
          (eventsPhase_no_pointer _ _))
        (axisEchoPhase_no_pointer _ _))
      (speedEchoPhase_no_pointer _ _))
    (builtinPhase_no_pointer _ _)

/-- Claim C5: a tick whose jack presence differs from the previous tick
releases all host-side mouse buttons (the mouse state entering the
event-emission half is all-released) and re-samples the pedal polarity from
the raw pedal line; a tick on which events transition from enabled to
disabled also releases all buttons, and the final mouse state is
all-released; while events are disabled no individual press/release and no
motion is emitted (the only pointer call the change-detection half may make
is the forced release-all). -/
theorem claim5_forced_release (st : LoopState) (inp : Input) :
    (st.prevJack ≠ some (jack_present inp) →
      (preMain st inp).1.mouse = ⟨false, false, false⟩ ∧
      (preMain st inp).1.button_ext_nc = !inp.lineExt ∧
      Ev.mouse .releaseAll ∈ (loopTick st inp).2) ∧
    (st.prevEvents = some true → events_enabled inp = false →
      (loopTick st inp).1.mouse = ⟨false, false, false⟩ ∧
      Ev.mouse .releaseAll ∈ (loopTick st inp).2) ∧
    (events_enabled inp = false →
      ∀ e ∈ (loopTick st inp).2, isPointerChange e = false) := by
  refine ⟨?_, ?_, ?_⟩
  · intro h
    have h1 : (serialPhase {st with spinner := st.spinner + inp.pulses} inp).1.prevJack
        = st.prevJack := by rw [serialPhase_fst]
    have hch := jackPhase_change
      (serialPhase {st with spinner := st.spinner + inp.pulses} inp).1 inp (by rw [h1]; exact h)
    refine ⟨?_, ?_, ?_⟩
    · show (builtinPhase _ _).1.mouse = _
      rw [builtinPhase_fst]
      show (speedEchoPhase _ _).1.mouse = _
      rw [speedEchoPhase_fst]
      show (axisEchoPhase _ _).1.mouse = _
      rw [axisEchoPhase_fst]
      exact eventsPhase_mouse_false _ inp hch.1
    · show (builtinPhase _ _).1.button_ext_nc = _
      rw [builtinPhase_fst]
      show (speedEchoPhase _ _).1.button_ext_nc = _
      rw [speedEchoPhase_fst]
      show (axisEchoPhase _ _).1.button_ext_nc = _
      rw [axisEchoPhase_fst]
      show (eventsPhase _ _).1.button_ext_nc = _
      rw [eventsPhase_fst]
      exact hch.2.1
    · refine loopTick_mem_of_preMain st inp _ ?_
      simp only [preMain, List.mem_append]
      exact Or.inl (Or.inl (Or.inl (Or.inl (Or.inr hch.2.2))))
  · intro hprev hen
    have hloop : loopTick st inp = preMain st inp := by
      simp only [loopTick, hen]
      norm_num
    have h1 : (serialPhase {st with spinner := st.spinner + inp.pulses} inp).1.prevEvents
        = st.prevEvents := by rw [serialPhase_fst]
    have h2 : (jackPhase (serialPhase {st with spinner := st.spinner + inp.pulses} inp).1 inp).1.prevEvents
        = st.prevEvents := by rw [jackPhase_fst]; exact h1
    have hne : (jackPhase (serialPhase {st with spinner := st.spinner + inp.pulses} inp).1 inp).1.prevEvents
        ≠ some (events_enabled inp) := by
      rw [h2, hprev, hen]
      simp
    have hdis := eventsPhase_disable _ inp hne hen
    constructor
    · rw [hloop]
      show (builtinPhase _ _).1.mouse = _
      rw [builtinPhase_fst]
      show (speedEchoPhase _ _).1.mouse = _
      rw [speedEchoPhase_fst]
      show (axisEchoPhase _ _).1.mouse = _
      rw [axisEchoPhase_fst]
      exact hdis.1
    · rw [hloop]
      simp only [preMain, List.mem_append]
      exact Or.inl (Or.inl (Or.inl (Or.inr hdis.2)))
  · intro hen
    have hloop : loopTick st inp = preMain st inp := by
      simp only [loopTick, hen]
      norm_num
    rw [hloop]
    exact preMain_no_pointer st inp

/-- Witness for claim C5: a tick that removes the jack and disables events
at once, from a state with the jack present and events enabled. -/
theorem claim5_forced_release_witness :
    (stW5.prevJack ≠ some (jack_present inpW5) ∧ stW5.prevEvents = some true ∧
      events_enabled inpW5 = false) ∧
    ((preMain stW5 inpW5).1.mouse = ⟨false, false, false⟩ ∧
     (preMain stW5 inpW5).1.button_ext_nc = !inpW5.lineExt ∧
     Ev.mouse .releaseAll ∈ (loopTick stW5 inpW5).2) :=
  ⟨⟨by decide, by decide, by decide⟩, (claim5_forced_release stW5 inpW5).1 (by decide)⟩

/-! ### Counting events across a tick -/

theorem countEv_append (e : Ev) (l1 l2 : List Ev) :
    countEv e (l1 ++ l2) = countEv e l1 + countEv e l2 := by
  induction l1 with
  | nil => simp [countEv]
  | cons x xs ih => simp [countEv, ih]; omega

theorem btnStep_fst (i : Fin 3) (p h : Bool) : (btnStep i p h).1 = p := by
  cases p <;> cases h <;> simp [btnStep]

theorem btnStep_count_press_self (i : Fin 3) (p h : Bool) :
    countEv (Ev.mouse (.press i)) (btnStep i p h).2 = if p && !h then 1 else 0 := by
  cases p <;> cases h <;> simp [btnStep, countEv]

theorem btnStep_count_press_other {j i : Fin 3} (hne : j ≠ i) (p h : Bool) :
    countEv (Ev.mouse (.press j)) (btnStep i p h).2 = 0 := by
  cases p <;> cases h <;> simp [btnStep, countEv, hne.symm]

theorem btnStep_count_release_self (i : Fin 3) (p h : Bool) :
    countEv (Ev.mouse (.release i)) (btnStep i p h).2 = if !p && h then 1 else 0 := by
  cases p <;> cases h <;> simp [btnStep, countEv]

theorem btnStep_count_release_other {j i : Fin 3} (hne : j ≠ i) (p h : Bool) :
    countEv (Ev.mouse (.release j)) (btnStep i p h).2 = 0 := by
  cases p <;> cases h <;> simp [btnStep, countEv, hne.symm]

theorem buttonEventsPhase_fst (st : LoopState) (bp : BTriple) :
    (buttonEventsPhase st bp).1 = {st with mouse := bp} := by
  simp only [buttonEventsPhase, btnStep_fst]

theorem buttonEventsPhase_count_press (st : LoopState) (bp : BTriple) (i : Fin 3) :
    countEv (Ev.mouse (.press i)) (buttonEventsPhase st bp).2
      = if bp.get i && !(st.mouse.get i) then 1 else 0 := by
  fin_cases i
  · show countEv (Ev.mouse (.press 0)) (buttonEventsPhase st bp).2
        = if bp.get 0 && !(st.mouse.get 0) then 1 else 0
    simp only [buttonEventsPhase, countEv_append, btnStep_count_press_self,
      btnStep_count_press_other (show ((0 : Fin 3)) ≠ 1 by decide),
      btnStep_count_press_other (show ((0 : Fin 3)) ≠ 2 by decide)]
    simp [BTriple.get]
  · show countEv (Ev.mouse (.press 1)) (buttonEventsPhase st bp).2
        = if bp.get 1 && !(st.mouse.get 1) then 1 else 0
    simp only [buttonEventsPhase, countEv_append, btnStep_count_press_self,
      btnStep_count_press_other (show ((1 : Fin 3)) ≠ 0 by decide),
      btnStep_count_press_other (show ((1 : Fin 3)) ≠ 2 by decide)]
    simp [BTriple.get]
  · show countEv (Ev.mouse (.press 2)) (buttonEventsPhase st bp).2
        = if bp.get 2 && !(st.mouse.get 2) then 1 else 0
    simp only [buttonEventsPhase, countEv_append, btnStep_count_press_self,
      btnStep_count_press_other (show ((2 : Fin 3)) ≠ 0 by decide),
      btnStep_count_press_other (show ((2 : Fin 3)) ≠ 1 by decide)]
    simp [BTriple.get]

theorem buttonEventsPhase_count_release (st : LoopState) (bp : BTriple) (i : Fin 3) :
    countEv (Ev.mouse (.release i)) (buttonEventsPhase st bp).2
      = if !(bp.get i) && st.mouse.get i then 1 else 0 := by
  fin_cases i
  · show countEv (Ev.mouse (.release 0)) (buttonEventsPhase st bp).2
        = if !(bp.get 0) && st.mouse.get 0 then 1 else 0
    simp only [buttonEventsPhase, countEv_append, btnStep_count_release_self,
      btnStep_count_release_other (show ((0 : Fin 3)) ≠ 1 by decide),
      btnStep_count_release_other (show ((0 : Fin 3)) ≠ 2 by decide)]
    simp [BTriple.get]
  · show countEv (Ev.mouse (.release 1)) (buttonEventsPhase st bp).2
        = if !(bp.get 1) && st.mouse.get 1 then 1 else 0
    simp only [buttonEventsPhase, countEv_append, btnStep_count_release_self,
      btnStep_count_release_other (show ((1 : Fin 3)) ≠ 0 by decide),
      btnStep_count_release_other (show ((1 : Fin 3)) ≠ 2 by decide)]
    simp [BTriple.get]
  · show countEv (Ev.mouse (.release 2)) (buttonEventsPhase st bp).2
        = if !(bp.get 2) && st.mouse.get 2 then 1 else 0
    simp only [buttonEventsPhase, countEv_append, btnStep_count_release_self,
      btnStep_count_release_other (show ((2 : Fin 3)) ≠ 0 by decide),
      btnStep_count_release_other (show ((2 : Fin 3)) ≠ 1 by decide)]
    simp [BTriple.get]

theorem builtinStep_count (prev : Option Bool) (b : Bool) (m : MouseEv) :
    countEv (Ev.mouse m) (builtinStep prev b).2 = 0 := by
  simp only [builtinStep]
  split <;> simp [countEv]

theorem builtinPhase_count (st : LoopState) (bp : BTriple) (m : MouseEv) :
    countEv (Ev.mouse m) (builtinPhase st bp).2 = 0 := by
  simp only [builtinPhase, countEv_append, builtinStep_count]

theorem axisEchoPhase_count (st : LoopState) (inp : Input) (m : MouseEv) :
    countEv (Ev.mouse m) (axisEchoPhase st inp).2 = 0 := by
  simp only [axisEchoPhase]
  split <;> simp [countEv]

theorem speedEchoPhase_count (st : LoopState) (inp : Input) (m : MouseEv) :
    countEv (Ev.mouse m) (speedEchoPhase st inp).2 = 0 := by
  simp only [speedEchoPhase]
  split <;> simp [countEv]

theorem motionPhase_fst (st : LoopState) (inp : Input) :
    (motionPhase st inp).1 = {st with spinner := (motionPhase st inp).1.spinner} := by
  simp only [motionPhase]
  split
  · split <;> rfl
  · rfl

theorem motionPhase_count_press (st : LoopState) (inp : Input) (i : Fin 3) :
    countEv (Ev.mouse (.press i)) (motionPhase st inp).2 = 0 := by
  simp only [motionPhase]
  split
  · split <;> simp [countEv]
  · simp [countEv]

theorem motionPhase_count_release (st : LoopState) (inp : Input) (i : Fin 3) :
    countEv (Ev.mouse (.release i)) (motionPhase st inp).2 = 0 := by
  simp only [motionPhase]
  split
  · split <;> simp [countEv]
  · simp [countEv]

theorem buttonsOf_congr {s1 s2 : LoopState} (inp : Input)
    (h1 : s1.buttons_swapped = s2.buttons_swapped) (h2 : s1.button_ext_nc = s2.button_ext_nc) :
    buttonsOf s1 inp = buttonsOf s2 inp := by
  simp [buttonsOf, h1, h2]

/-- On a steady tick (no serial byte, jack unchanged, events flag unchanged)
the change-detection half leaves the configuration and mouse state alone and
emits no mouse events at all. -/
theorem preMain_steady (st : LoopState) (inp : Input)
    (hs : inp.serialByte = none)
    (hj : st.prevJack = some (jack_present inp))
    (hee : st.prevEvents = some (events_enabled inp)) :
    (preMain st inp).1.mouse = st.mouse ∧
    (preMain st inp).1.buttons_swapped = st.buttons_swapped ∧
    (preMain st inp).1.button_ext_nc = st.button_ext_nc ∧
    (preMain st inp).1.prevJack = st.prevJack ∧
    (preMain st inp).1.prevEvents = st.prevEvents ∧
    (preMain st inp).1.speed_percent = st.speed_percent ∧
    (preMain st inp).1.spinner = st.spinner + inp.pulses ∧
    (∀ m : MouseEv, countEv (Ev.mouse m) (preMain st inp).2 = 0) := by
  have hserial : serialPhase {st with spinner := st.spinner + inp.pulses} inp
      = ({st with spinner := st.spinner + inp.pulses}, []) := by
    simp [serialPhase, hs]
  have hjack : jackPhase {st with spinner := st.spinner + inp.pulses} inp
      = ({st with spinner := st.spinner + inp.pulses}, []) := by
    simp [jackPhase, hj.symm]
  have hevents : eventsPhase {st with spinner := st.spinner + inp.pulses} inp
      = ({st with spinner := st.spinner + inp.pulses}, []) := by
    simp [eventsPhase, hee.symm]
  simp only [preMain, hserial, hjack, hevents]
  rw [axisEchoPhase_fst, speedEchoPhase_fst, builtinPhase_fst]
  refine ⟨rfl, rfl, rfl, rfl, rfl, rfl, rfl, ?_⟩
  intro m
  simp only [countEv_append, countEv, axisEchoPhase_count, speedEchoPhase_count,
    builtinPhase_count]

/-- On a steady, events-enabled tick the mouse state exactly tracks the
logical buttons, the configuration and `prev` fields are unchanged, and the
press/release events for each button are exactly the edges between the host
mouse state and the tick's logical buttons. -/
theorem loopTick_steady (st : LoopState) (inp : Input)
    (hs : inp.serialByte = none) (hd : inp.dip1 = false)
    (hj : st.prevJack = some (jack_present inp)) (he : st.prevEvents = some true) :
    (loopTick st inp).1.prevJack = st.prevJack ∧
    (loopTick st inp).1.prevEvents = st.prevEvents ∧
    (loopTick st inp).1.buttons_swapped = st.buttons_swapped ∧
    (loopTick st inp).1.button_ext_nc = st.button_ext_nc ∧
    (loopTick st inp).1.mouse = buttonsOf st inp ∧
    (∀ i, countEv (Ev.mouse (.press i)) (loopTick st inp).2
        = if (buttonsOf st inp).get i && !(st.mouse.get i) then 1 else 0) ∧
    (∀ i, countEv (Ev.mouse (.release i)) (loopTick st inp).2
        = if !((buttonsOf st inp).get i) && st.mouse.get i then 1 else 0) := by
  have hen : events_enabled inp = true := by simp [events_enabled, hd]
  obtain ⟨hm, hsw, hnc, hpj, hpe, _hsp, _hspin, hcnt⟩ :=
    preMain_steady st inp hs hj (by rw [he, hen])
  have hbp : buttonsOf (preMain st inp).1 inp = buttonsOf st inp := buttonsOf_congr inp hsw hnc
  have hbe := buttonEventsPhase_fst (preMain st inp).1 (buttonsOf st inp)
  simp only [loopTick, hen, if_true, hbp]
  refine ⟨?_, ?_, ?_, ?_, ?_, ?_, ?_⟩
  · rw [motionPhase_fst, hbe]; exact hpj
  · rw [motionPhase_fst, hbe]; exact hpe
  · rw [motionPhase_fst, hbe]; exact hsw
  · rw [motionPhase_fst, hbe]; exact hnc
  · rw [motionPhase_fst, hbe]
  · intro i
    rw [countEv_append, countEv_append, hcnt, buttonEventsPhase_count_press,
      motionPhase_count_press, hm]
    simp
  · intro i
    rw [countEv_append, countEv_append, hcnt, buttonEventsPhase_count_release,
      motionPhase_count_release, hm]
    simp

/-- Claim C3: over any run of ticks with events enabled, no serial traffic
and a constant jack state, each logical button's press events are exactly
the `false → true` edges of its logical state (seeded with the host mouse
state) and its release events exactly the `true → false` edges; in
particular a button held across many ticks yields no repeated press. -/
theorem claim3_edge_triggered (st : LoopState) (j : Bool) (inputs : List Input)
    (hj : st.prevJack = some j) (he : st.prevEvents = some true)
    (hins : ∀ inp ∈ inputs, inp.serialByte = none ∧ inp.dip1 = false ∧ inp.jackSense = j) :
    ∀ i : Fin 3,
      countEv (Ev.mouse (.press i)) (run st inputs).2
        = risingEdges (st.mouse.get i)
            (inputs.map fun inp =>
              (buttons_pressed j st.buttons_swapped st.button_ext_nc
                inp.line1 inp.line2 inp.lineExt).get i) ∧
      countEv (Ev.mouse (.release i)) (run st inputs).2
        = fallingEdges (st.mouse.get i)
            (inputs.map fun inp =>
              (buttons_pressed j st.buttons_swapped st.button_ext_nc
                inp.line1 inp.line2 inp.lineExt).get i) := by
  induction inputs generalizing st with
  | nil => intro i; simp [run, risingEdges, fallingEdges, countEv]
  | cons inp rest ih =>
    intro i
    obtain ⟨hs, hd, hjs⟩ := hins inp (List.mem_cons_self inp rest)
    have hjp : jack_present inp = j := by
      simp [jack_present, PEDAL_JACK_AVAILABLE, hjs]
    have hj' : st.prevJack = some (jack_present inp) := by rw [hjp]; exact hj
    obtain ⟨tpj, tpe, tsw, tnc, tm, tcp, tcr⟩ := loopTick_steady st inp hs hd hj' he
    have hbp : buttonsOf st inp
        = buttons_pressed j st.buttons_swapped st.button_ext_nc inp.line1 inp.line2 inp.lineExt := by
      rw [buttonsOf, hjp]
    have ih2 := ih (loopTick st inp).1 (by rw [tpj]; exact hj) (by rw [tpe]; exact he)
      (fun x hx => hins x (List.mem_cons_of_mem inp hx)) i
    rw [tsw, tnc] at ih2
    have hrun : run st (inp :: rest)
        = ((run (loopTick st inp).1 rest).1,
           (loopTick st inp).2 ++ (run (loopTick st inp).1 rest).2) := rfl
    rw [hrun]
    simp only [countEv_append, List.map_cons, risingEdges, fallingEdges]
    constructor
    · rw [ih2.1, tcp i, tm, hbp]
    · rw [ih2.2, tcr i, tm, hbp]

/-- Witness for claim C3: two ticks with the primary button held, from a
steady state; exactly one press on the left channel. -/
theorem claim3_edge_triggered_witness :
    (stW3.prevJack = some false ∧ stW3.prevEvents = some true ∧
      (∀ inp ∈ [inpW3, inpW3], inp.serialByte = none ∧ inp.dip1 = false ∧ inp.jackSense = false)) ∧
    (countEv (Ev.mouse (.press 0)) (run stW3 [inpW3, inpW3]).2
        = risingEdges (stW3.mouse.get 0)
            ([inpW3, inpW3].map fun inp =>
              (buttons_pressed false stW3.buttons_swapped stW3.button_ext_nc
                inp.line1 inp.line2 inp.lineExt).get 0) ∧
     countEv (Ev.mouse (.release 0)) (run stW3 [inpW3, inpW3]).2
        = fallingEdges (stW3.mouse.get 0)
            ([inpW3, inpW3].map fun inp =>
              (buttons_pressed false stW3.buttons_swapped stW3.button_ext_nc
                inp.line1 inp.line2 inp.lineExt).get 0)) :=
  ⟨⟨rfl, rfl, by decide⟩,
   claim3_edge_triggered stW3 false [inpW3, inpW3] rfl rfl (by decide) 0⟩

end SpinnerMouse
